import Mathlib

/-!
Verification of the SQL statement splitter and sequential migration executor
of `scripts/src/supabase-migrate.js` (plus the CLI wrapper
`scripts/run-migration.js`), shallowly embedded in Lean.

String primitives of the JavaScript runtime (`trim`, `startsWith`,
`endsWith`, `split("\n")`, counting occurrences of `$$`) are embedded as
computable functions over `String.data` so that every definition reduces
inside the kernel.
-/

namespace Migrate

/-- Character-list form of JavaScript `trim`: drop leading and trailing
whitespace. -/
def trimChars (l : List Char) : List Char :=
  (l.dropWhile Char.isWhitespace).rdropWhile Char.isWhitespace

/-- JavaScript `s.trim()`. -/
def jsTrim (s : String) : String :=
  ⟨trimChars s.data⟩

/-- JavaScript `s.startsWith(pre)`. -/
def jsStartsWith (s pre : String) : Bool :=
  pre.data.isPrefixOf s.data

/-- JavaScript `s.endsWith(suf)`. -/
def jsEndsWith (s suf : String) : Bool :=
  suf.data.isSuffixOf s.data

/-- Number of non-overlapping occurrences of the two-character marker `$$`,
scanning left to right: JavaScript `(s.match(/\$\$/g) || []).length`. -/
def countDollarPairs : List Char → Nat
  | '$' :: '$' :: rest => countDollarPairs rest + 1
  | _ :: rest => countDollarPairs rest
  | [] => 0

/-- Helper for `jsSplitLines`; `acc` holds the current piece reversed. -/
def splitNlAux : List Char → List Char → List String
  | [], acc => [⟨acc.reverse⟩]
  | '\n' :: rest, acc => ⟨acc.reverse⟩ :: splitNlAux rest []
  | c :: rest, acc => splitNlAux rest (c :: acc)

/-- JavaScript `sql.split("\n")`: splits at every newline, keeping empty
pieces; the empty string yields `[""]`. -/
def jsSplitLines (s : String) : List String :=
  splitNlAux s.data []

/-- Outcome of `executeSQL` for one statement: the `success` flag and, on
failure, the error detail.  (The success payload `data` is irrelevant to
the executor's accounting and is omitted.) -/
structure ExecResult where
  success : Bool
  error : String
deriving DecidableEq, Repr

/-- Aggregate result of a migration run, as returned by `runMigration` and
`runMigrationFile`. -/
structure MigrationResult where
  total : Nat
  successful : Nat
  failed : Nat
  errors : List String
deriving DecidableEq, Repr

/-- The loop body of `runMigration` (`supabase-migrate.js`, lines 141-164),
recursing over the statement list with the 0-based loop index `i` and
returning the `(successful, failed, errors)` accumulation.  The executor
`f` stands for `executeSQL`; the inter-statement delay and the logging
controlled by `silent` do not affect the returned result and are omitted. -/
def runMigrationAux (f : String → ExecResult) (stopOnError : Bool) :
    List String → Nat → Nat × Nat × List String
  | [], _ => (0, 0, [])
  | s :: rest, i =>
    let stmt := jsTrim s
    if stmt = "" ∨ jsStartsWith stmt "--" = true then
      runMigrationAux f stopOnError rest (i + 1)
    else
      let r := f stmt
      if r.success = true then
        let res := runMigrationAux f stopOnError rest (i + 1)
        (res.1 + 1, res.2.1, res.2.2)
      else
        let e := "Statement " ++ toString (i + 1) ++ ": " ++ r.error
        if stopOnError = true then
          (0, 1, [e])
        else
          let res := runMigrationAux f stopOnError rest (i + 1)
          (res.1, res.2.1 + 1, e :: res.2.2)

/-- `runMigration(statements, {stopOnError})`: run the loop and pair the
accumulated counters with `total = statements.length`. -/
def runMigration (f : String → ExecResult) (stopOnError : Bool)
    (statements : List String) : MigrationResult :=
  let res := runMigrationAux f stopOnError statements 0
  ⟨statements.length, res.1, res.2.1, res.2.2⟩

/-- The sequence of arguments `runMigration` passes to `executeSQL`, in
order: same loop as `runMigrationAux`, recording the trimmed statement at
each call site instead of the counters. -/
def runMigrationCalls (f : String → ExecResult) (stopOnError : Bool) :
    List String → List String
  | [] => []
  | s :: rest =>
    let stmt := jsTrim s
    if stmt = "" ∨ jsStartsWith stmt "--" = true then
      runMigrationCalls f stopOnError rest
    else if (f stmt).success = true then
      stmt :: runMigrationCalls f stopOnError rest
    else if stopOnError = true then
      [stmt]
    else
      stmt :: runMigrationCalls f stopOnError rest

/-- The line scan of `parseSQLStatements` (lines 186-212): fold over the
lines keeping the dollar-quote flag and the accumulation buffer, returning
the completed statements together with the final flag and buffer.
The source guards the `$$` count behind `trimmed.includes("$$")`; a line
includes `$$` exactly when the left-to-right pair count is positive, which
is how that guard is rendered here. -/
def scanLines : List String → Bool → String → List String × Bool × String
  | [], inDQ, current => ([], inDQ, current)
  | line :: rest, inDQ, current =>
    let trimmed := jsTrim line
    if inDQ = false ∧ (trimmed = "" ∨ jsStartsWith trimmed "--" = true) then
      scanLines rest inDQ current
    else
      let cnt := countDollarPairs trimmed.data
      let inDQ' := if 0 < cnt then (if cnt % 2 = 1 then !inDQ else inDQ) else inDQ
      let current' := current ++ line ++ "\n"
      if inDQ' = false ∧ jsEndsWith trimmed ";" = true then
        let stmt := jsTrim current'
        let res := scanLines rest inDQ' ""
        if stmt ≠ "" ∧ jsStartsWith stmt "--" = false then
          (stmt :: res.1, res.2)
        else
          res
      else
        scanLines rest inDQ' current'

/-- `parseSQLStatements(sql)` (lines 179-220): scan the lines from the
initial state, then flush any non-empty remaining buffer as one final
statement. -/
def parseSQLStatements (sql : String) : List String :=
  let res := scanLines (jsSplitLines sql) false ""
  res.1 ++ (if jsTrim res.2.2 ≠ "" then [jsTrim res.2.2] else [])

/-- The file system visible to `runMigrationFile`, keyed by the (already
resolved) path: `none` models `fs.existsSync` returning false. -/
def FileSystem : Type := String → Option String

/-- `runMigrationFile(filePath, options)` (lines 228-247).  The result type
distinguishes a thrown (fatal) error from a normally returned
`MigrationResult`; the source returns normally on both branches — on a
missing file it returns the sentinel result instead of throwing. -/
def runMigrationFile (fs : FileSystem) (f : String → ExecResult)
    (stopOnError : Bool) (filePath : String) : Except String MigrationResult :=
  match fs filePath with
  | none => .ok ⟨0, 0, 0, ["File not found"]⟩
  | some sql => .ok (runMigration f stopOnError (parseSQLStatements sql))

/-- Statements submitted to the executor by `runMigrationFile`. -/
def runMigrationFileCalls (fs : FileSystem) (f : String → ExecResult)
    (stopOnError : Bool) (filePath : String) : List String :=
  match fs filePath with
  | none => []
  | some sql => runMigrationCalls f stopOnError (parseSQLStatements sql)

/-- Exit code of the CLI wrapper `run-migration.js`: 1 when the promise
rejects (fatal error) or when `result.failed > 0`, otherwise 0. -/
def mainExitCode (r : Except String MigrationResult) : Nat :=
  match r with
  | .error _ => 1
  | .ok res => if res.failed > 0 then 1 else 0

theorem dropWhile_rdropWhile_dropWhile (p : α → Bool) (l : List α) :
    ((l.dropWhile p).rdropWhile p).dropWhile p = (l.dropWhile p).rdropWhile p := by
  rcases hE : (l.dropWhile p).rdropWhile p with _ | ⟨x, t⟩
  · simp
  · have hpre : (l.dropWhile p).rdropWhile p <+: l.dropWhile p :=
      List.rdropWhile_prefix p (l.dropWhile p)
    rw [hE] at hpre
    obtain ⟨r, hr⟩ := hpre
    have hr' : l.dropWhile p = x :: (t ++ r) := by rw [← hr]; simp
    have hx : p x = false := by
      by_contra hpx
      have hpx' : p x = true := by simpa using hpx
      have hid := List.dropWhile_idempotent p l
      rw [hr', List.dropWhile_cons, if_pos hpx'] at hid
      have hlen := (List.dropWhile_suffix (l := t ++ r) p).length_le
      rw [hid] at hlen
      simp at hlen
    rw [List.dropWhile_cons, if_neg (by simp [hx])]

theorem trimChars_idem (l : List Char) : trimChars (trimChars l) = trimChars l := by
  unfold trimChars
  rw [dropWhile_rdropWhile_dropWhile, List.rdropWhile_idempotent]

theorem jsTrim_idem (s : String) : jsTrim (jsTrim s) = jsTrim s :=
  congrArg String.mk (trimChars_idem s.data)

/-- The scan is compositional: scanning `l1 ++ l2` is scanning `l1`, then
scanning `l2` from the resulting state, concatenating the statements. -/
theorem scanLines_append (l1 l2 : List String) (d : Bool) (c : String) :
    scanLines (l1 ++ l2) d c =
      ((scanLines l1 d c).1 ++
        (scanLines l2 (scanLines l1 d c).2.1 (scanLines l1 d c).2.2).1,
       (scanLines l2 (scanLines l1 d c).2.1 (scanLines l1 d c).2.2).2) := by
  induction l1 generalizing d c with
  | nil => simp [scanLines]
  | cons line rest ih =>
    rw [List.cons_append]
    simp only [scanLines]
    by_cases hskip : d = false ∧ (jsTrim line = "" ∨ jsStartsWith (jsTrim line) "--" = true)
    · rw [if_pos hskip, if_pos hskip]
      exact ih d c
    · rw [if_neg hskip, if_neg hskip]
      by_cases hclose :
          (if 0 < countDollarPairs (jsTrim line).data then
            (if countDollarPairs (jsTrim line).data % 2 = 1 then !d else d) else d) = false ∧
          jsEndsWith (jsTrim line) ";" = true
      · rw [if_pos hclose, if_pos hclose]
        rw [ih]
        by_cases hpush : jsTrim (c ++ line ++ "\n") ≠ "" ∧
            jsStartsWith (jsTrim (c ++ line ++ "\n")) "--" = false
        · rw [if_pos hpush, if_pos hpush]
          simp
        · rw [if_neg hpush, if_neg hpush]
      · rw [if_neg hclose, if_neg hclose]
        exact ih _ _

/-- Outside a dollar quote, blank lines and comment lines are skipped and
change nothing. -/
theorem scanLines_skip (ls : List String) (c : String) (d : Bool) (hd : d = false)
    (h : ∀ l ∈ ls, jsTrim l = "" ∨ jsStartsWith (jsTrim l) "--" = true) :
    scanLines ls d c = ([], d, c) := by
  induction ls with
  | nil => rfl
  | cons line rest ih =>
    simp only [scanLines]
    rw [if_pos ⟨hd, h line (List.mem_cons_self line rest)⟩]
    exact ih fun l hl => h l (List.mem_cons_of_mem line hl)

/-- Every statement emitted by the scan is the `jsTrim` of some buffer and
is non-empty; with `jsTrim` idempotent, it equals its own trim. -/
theorem scanLines_mem_trimmed (ls : List String) (d : Bool) (c : String) :
    ∀ s ∈ (scanLines ls d c).1, s ≠ "" ∧ jsTrim s = s := by
  induction ls generalizing d c with
  | nil => intro s hs; simp [scanLines] at hs
  | cons line rest ih =>
    intro s hs
    simp only [scanLines] at hs
    by_cases hskip : d = false ∧ (jsTrim line = "" ∨ jsStartsWith (jsTrim line) "--" = true)
    · rw [if_pos hskip] at hs
      exact ih d c s hs
    · rw [if_neg hskip] at hs
      by_cases hclose :
          (if 0 < countDollarPairs (jsTrim line).data then
            (if countDollarPairs (jsTrim line).data % 2 = 1 then !d else d) else d) = false ∧
          jsEndsWith (jsTrim line) ";" = true
      · rw [if_pos hclose] at hs
        by_cases hpush : jsTrim (c ++ line ++ "\n") ≠ "" ∧
            jsStartsWith (jsTrim (c ++ line ++ "\n")) "--" = false
        · rw [if_pos hpush] at hs
          rcases List.mem_cons.mp hs with hh | ht
          · subst hh
            exact ⟨hpush.1, jsTrim_idem _⟩
          · exact ih _ _ s ht
        · rw [if_neg hpush] at hs
          exact ih _ _ s hs
      · rw [if_neg hclose] at hs
        exact ih _ _ s hs

/-- With `stopOnError = false` and no skippable entry, every statement is
counted exactly once: the counters sum to the list length. -/
theorem runMigrationAux_sum (f : String → ExecResult) (stmts : List String)
    (h : ∀ s ∈ stmts, jsTrim s ≠ "" ∧ jsStartsWith (jsTrim s) "--" = false) :
    ∀ i, (runMigrationAux f false stmts i).1 + (runMigrationAux f false stmts i).2.1
      = stmts.length := by
  induction stmts with
  | nil => intro i; rfl
  | cons s rest ih =>
    intro i
    have hs := h s (List.mem_cons_self s rest)
    simp only [runMigrationAux]
    rw [if_neg (by simp [hs.1, hs.2])]
    by_cases hr : (f (jsTrim s)).success = true
    · rw [if_pos hr]
      have := ih (fun t ht => h t (List.mem_cons_of_mem s ht)) (i + 1)
      simp only [List.length_cons]
      omega
    · rw [if_neg hr]
      have hstop : ¬ ((false : Bool) = true) := by simp
      rw [if_neg hstop]
      have := ih (fun t ht => h t (List.mem_cons_of_mem s ht)) (i + 1)
      simp only [List.length_cons]
      omega

/-- The loop records exactly one error entry per failed statement (any
configuration, any input). -/
theorem runMigrationAux_errs_len (f : String → ExecResult) (stop : Bool)
    (stmts : List String) :
    ∀ i, ((runMigrationAux f stop stmts i).2.2).length
      = (runMigrationAux f stop stmts i).2.1 := by
  induction stmts with
  | nil => intro i; rfl
  | cons s rest ih =>
    intro i
    simp only [runMigrationAux]
    by_cases hskip : jsTrim s = "" ∨ jsStartsWith (jsTrim s) "--" = true
    · rw [if_pos hskip]; exact ih (i + 1)
    · rw [if_neg hskip]
      by_cases hr : (f (jsTrim s)).success = true
      · rw [if_pos hr]; exact ih (i + 1)
      · rw [if_neg hr]
        by_cases hstop : stop = true
        · rw [if_pos hstop]; rfl
        · rw [if_neg hstop]
          simp only [List.length_cons, ih (i + 1)]

/-- Every error entry recorded by the loop started at index `i` comes from
a failing statement at some position `j` of the list and is formatted with
the 1-based position `i + j + 1`. -/
theorem runMigrationAux_errs_mem (f : String → ExecResult) (stop : Bool)
    (stmts : List String) :
    ∀ i, ∀ e ∈ (runMigrationAux f stop stmts i).2.2,
      ∃ j, ∃ hj : j < stmts.length,
        (f (jsTrim (stmts.get ⟨j, hj⟩))).success = false ∧
        e = "Statement " ++ toString (i + j + 1) ++ ": "
            ++ (f (jsTrim (stmts.get ⟨j, hj⟩))).error := by
  induction stmts with
  | nil => intro i e he; simp [runMigrationAux] at he
  | cons s rest ih =>
    intro i e he
    simp only [runMigrationAux] at he
    by_cases hskip : jsTrim s = "" ∨ jsStartsWith (jsTrim s) "--" = true
    · rw [if_pos hskip] at he
      obtain ⟨j, hj, hfail, hfmt⟩ := ih (i + 1) e he
      have hidx : i + 1 + j + 1 = i + (j + 1) + 1 := by omega
      exact ⟨j + 1, by simpa using Nat.succ_lt_succ hj,
        hfail, by rw [hfmt, hidx]; rfl⟩
    · rw [if_neg hskip] at he
      by_cases hr : (f (jsTrim s)).success = true
      · rw [if_pos hr] at he
        obtain ⟨j, hj, hfail, hfmt⟩ := ih (i + 1) e he
        have hidx : i + 1 + j + 1 = i + (j + 1) + 1 := by omega
        exact ⟨j + 1, by simpa using Nat.succ_lt_succ hj,
          hfail, by rw [hfmt, hidx]; rfl⟩
      · rw [if_neg hr] at he
        by_cases hstop : stop = true
        · rw [if_pos hstop] at he
          simp only [List.mem_singleton] at he
          exact ⟨0, by simp, by simpa using hr, by rw [he]; simp⟩
        · rw [if_neg hstop] at he
          rcases List.mem_cons.mp he with hh | ht
          · exact ⟨0, by simp, by simpa using hr, by rw [hh]; simp⟩
          · obtain ⟨j, hj, hfail, hfmt⟩ := ih (i + 1) e ht
            have hidx : i + 1 + j + 1 = i + (j + 1) + 1 := by omega
            exact ⟨j + 1, by simpa using Nat.succ_lt_succ hj,
              hfail, by rw [hfmt, hidx]; rfl⟩

/-- With an always-succeeding executor and no skippable entry the loop
counts every statement as successful and records nothing else. -/
theorem runMigrationAux_allOk (f : String → ExecResult) (stop : Bool)
    (stmts : List String)
    (hf : ∀ s, (f s).success = true)
    (h : ∀ s ∈ stmts, jsTrim s ≠ "" ∧ jsStartsWith (jsTrim s) "--" = false) :
    ∀ i, runMigrationAux f stop stmts i = (stmts.length, 0, []) := by
  induction stmts with
  | nil => intro i; rfl
  | cons s rest ih =>
    intro i
    have hs := h s (List.mem_cons_self s rest)
    simp only [runMigrationAux]
    rw [if_neg (by simp [hs.1, hs.2])]
    rw [if_pos (hf (jsTrim s))]
    rw [ih (fun t ht => h t (List.mem_cons_of_mem s ht)) (i + 1)]
    rfl

/-! ### Claim C1 -/

/-- Claim C1 fails as stated: with stop-on-first-error set and the first of
two statements failing, the loop breaks and `total = 2` exceeds
`successful + failed = 1`. -/
theorem C1_counterexample :
    (runMigration (fun _ => ExecResult.mk false "boom") true ["a;", "b;"]).total
      ≠ (runMigration (fun _ => ExecResult.mk false "boom") true ["a;", "b;"]).successful
        + (runMigration (fun _ => ExecResult.mk false "boom") true ["a;", "b;"]).failed := by
  decide

/-- Claim C1 (amended): for every `MigrationResult` returned by
`runMigration` with stop-on-first-error false and no statement that is
blank or a comment after trimming, the total count equals the successful
count plus the failed count. -/
theorem C1_total_eq_sum (f : String → ExecResult) (stmts : List String)
    (h : ∀ s ∈ stmts, jsTrim s ≠ "" ∧ jsStartsWith (jsTrim s) "--" = false) :
    (runMigration f false stmts).total
      = (runMigration f false stmts).successful + (runMigration f false stmts).failed := by
  have hsum := runMigrationAux_sum f stmts h 0
  simp only [runMigration]
  omega

/-- Witness for C1 at a concrete failing run. -/
theorem C1_total_eq_sum_witness :
    (runMigration (fun _ => ExecResult.mk false "x") false ["a;", "b;"]).total
      = (runMigration (fun _ => ExecResult.mk false "x") false ["a;", "b;"]).successful
        + (runMigration (fun _ => ExecResult.mk false "x") false ["a;", "b;"]).failed :=
  C1_total_eq_sum (fun _ => ExecResult.mk false "x") ["a;", "b;"] (by decide)

/-! ### Claim C3 -/

/-- Claim C3 fails as stated for `runMigrationFile`: the file-not-found
result carries one error entry (untagged) while `failed = 0`. -/
theorem C3_counterexample :
    runMigrationFile (fun _ => none) (fun _ => ExecResult.mk true "") false "missing.sql"
        = .ok ⟨0, 0, 0, ["File not found"]⟩ ∧
      (MigrationResult.mk 0 0 0 ["File not found"]).errors.length
        ≠ (MigrationResult.mk 0 0 0 ["File not found"]).failed :=
  ⟨rfl, by decide⟩

/-- Claim C3 (amended): for every `MigrationResult` produced by
`runMigration`, the error list has exactly one entry per failed statement
(its length equals the failed count) and every entry is the formatted
message of a failing statement tagged with that statement's 1-based
position.  (`runMigrationFile` inherits this whenever the file exists; its
file-not-found result does not satisfy it.) -/
theorem C3_errors_per_failure (f : String → ExecResult) (stop : Bool)
    (stmts : List String) :
    (runMigration f stop stmts).errors.length = (runMigration f stop stmts).failed ∧
    ∀ e ∈ (runMigration f stop stmts).errors,
      ∃ j, ∃ hj : j < stmts.length,
        (f (jsTrim (stmts.get ⟨j, hj⟩))).success = false ∧
        e = "Statement " ++ toString (j + 1) ++ ": "
            ++ (f (jsTrim (stmts.get ⟨j, hj⟩))).error := by
  constructor
  · exact runMigrationAux_errs_len f stop stmts 0
  · intro e he
    obtain ⟨j, hj, hfail, hfmt⟩ := runMigrationAux_errs_mem f stop stmts 0 e he
    have hidx : 0 + j + 1 = j + 1 := by omega
    exact ⟨j, hj, hfail, by rw [hfmt, hidx]⟩

/-- Witness for C3 at a concrete run where statement 2 fails. -/
theorem C3_errors_per_failure_witness :
    ((runMigration (fun s => ExecResult.mk (s == "a;") "boom") false ["a;", "b;"]).errors.length
        = (runMigration (fun s => ExecResult.mk (s == "a;") "boom") false ["a;", "b;"]).failed) ∧
      ∃ j, ∃ hj : j < (["a;", "b;"] : List String).length,
        ((fun s => ExecResult.mk (s == "a;") "boom")
            (jsTrim ((["a;", "b;"] : List String).get ⟨j, hj⟩))).success = false ∧
        "Statement 2: boom" = "Statement " ++ toString (j + 1) ++ ": "
          ++ ((fun s => ExecResult.mk (s == "a;") "boom")
              (jsTrim ((["a;", "b;"] : List String).get ⟨j, hj⟩))).error :=
  ⟨(C3_errors_per_failure (fun s => ExecResult.mk (s == "a;") "boom") false ["a;", "b;"]).1,
   (C3_errors_per_failure (fun s => ExecResult.mk (s == "a;") "boom") false ["a;", "b;"]).2
     "Statement 2: boom" (by decide)⟩

/-! ### Claim C4 -/

/-- Claim C4: for a 4-statement input (no entry blank or comment-only in
the first two positions) where the executor succeeds on statement 1 and
fails on statement 2, with stop-on-first-error true, `runMigration`
returns `successful = 1`, `failed = 1`, submits only statements 1 and 2 to
the executor (statements 3 and 4 are never invoked — no assumption about
the executor on them is even needed), and `successful + failed < total`. -/
theorem C4_stop_on_first_error (f : String → ExecResult) (s1 s2 s3 s4 : String)
    (h1 : jsTrim s1 ≠ "" ∧ jsStartsWith (jsTrim s1) "--" = false)
    (h2 : jsTrim s2 ≠ "" ∧ jsStartsWith (jsTrim s2) "--" = false)
    (hf1 : (f (jsTrim s1)).success = true)
    (hf2 : (f (jsTrim s2)).success = false) :
    runMigration f true [s1, s2, s3, s4]
        = ⟨4, 1, 1, ["Statement 2: " ++ (f (jsTrim s2)).error]⟩ ∧
      runMigrationCalls f true [s1, s2, s3, s4] = [jsTrim s1, jsTrim s2] ∧
      (runMigration f true [s1, s2, s3, s4]).successful
          + (runMigration f true [s1, s2, s3, s4]).failed
        < (runMigration f true [s1, s2, s3, s4]).total := by
  have hres : runMigrationAux f true [s1, s2, s3, s4] 0
      = (1, 1, ["Statement 2: " ++ (f (jsTrim s2)).error]) := by
    simp [runMigrationAux, h1.1, h1.2, h2.1, h2.2, hf1, hf2]
    rfl
  have hcalls : runMigrationCalls f true [s1, s2, s3, s4] = [jsTrim s1, jsTrim s2] := by
    simp [runMigrationCalls, h1.1, h1.2, h2.1, h2.2, hf1, hf2]
  refine ⟨?_, hcalls, ?_⟩
  · simp only [runMigration, hres]
    rfl
  · simp only [runMigration, hres]
    simp

/-- Witness for C4 at a concrete 4-statement run. -/
theorem C4_stop_on_first_error_witness :
    runMigration (fun s => ExecResult.mk (s != "b;") "dup") true ["a;", "b;", "c;", "d;"]
        = ⟨4, 1, 1, ["Statement 2: "
            ++ ((fun s => ExecResult.mk (s != "b;") "dup") (jsTrim "b;")).error]⟩ ∧
      runMigrationCalls (fun s => ExecResult.mk (s != "b;") "dup") true
          ["a;", "b;", "c;", "d;"] = [jsTrim "a;", jsTrim "b;"] ∧
      (runMigration (fun s => ExecResult.mk (s != "b;") "dup") true
          ["a;", "b;", "c;", "d;"]).successful
          + (runMigration (fun s => ExecResult.mk (s != "b;") "dup") true
              ["a;", "b;", "c;", "d;"]).failed
        < (runMigration (fun s => ExecResult.mk (s != "b;") "dup") true
            ["a;", "b;", "c;", "d;"]).total :=
  C4_stop_on_first_error (fun s => ExecResult.mk (s != "b;") "dup") "a;" "b;" "c;" "d;"
    (by decide) (by decide) (by decide) (by decide)

/-! ### Claim C5 -/

/-- Claim C5 fails as stated: with an always-succeeding executor, a list
containing a blank entry is skipped by the loop, so `successful` falls
short of `N`. -/
theorem C5_counterexample :
    (∀ s : String, ((fun _ => ExecResult.mk true "") s).success = true) ∧
      (runMigration (fun _ => ExecResult.mk true "") false [""]).successful
        ≠ ([""] : List String).length :=
  ⟨fun _ => rfl, by decide⟩

/-- Claim C5 (amended): given an executor that always succeeds, for every
input list of `N ≥ 0` statements none of which is blank or a comment after
trimming, `runMigration` returns `successful = N`, `failed = 0` and an
empty error list (for either stop-on-first-error setting). -/
theorem C5_all_success (f : String → ExecResult) (stop : Bool) (stmts : List String)
    (hf : ∀ s, (f s).success = true)
    (h : ∀ s ∈ stmts, jsTrim s ≠ "" ∧ jsStartsWith (jsTrim s) "--" = false) :
    runMigration f stop stmts = ⟨stmts.length, stmts.length, 0, []⟩ := by
  simp only [runMigration, runMigrationAux_allOk f stop stmts hf h 0]

/-- Witness for C5 at a concrete 3-statement run. -/
theorem C5_all_success_witness :
    runMigration (fun _ => ExecResult.mk true "") false ["a;", "b;", "c;"]
      = ⟨3, 3, 0, []⟩ :=
  C5_all_success (fun _ => ExecResult.mk true "") false ["a;", "b;", "c;"]
    (fun _ => rfl) (by decide)

/-! ### Claim C6 -/

/-- Claim C6: for a 4-statement input (no entry blank or comment-only)
where the executor fails exactly on statement 2 and stop-on-first-error is
false, `runMigration` returns `total = 4`, `successful = 3`, `failed = 1`,
and the error list is exactly `["Statement 2: <detail>"]`, tagged with the
failing statement's 1-based index. -/
theorem C6_continue_after_failure (f : String → ExecResult) (s1 s2 s3 s4 : String)
    (h1 : jsTrim s1 ≠ "" ∧ jsStartsWith (jsTrim s1) "--" = false)
    (h2 : jsTrim s2 ≠ "" ∧ jsStartsWith (jsTrim s2) "--" = false)
    (h3 : jsTrim s3 ≠ "" ∧ jsStartsWith (jsTrim s3) "--" = false)
    (h4 : jsTrim s4 ≠ "" ∧ jsStartsWith (jsTrim s4) "--" = false)
    (hf1 : (f (jsTrim s1)).success = true)
    (hf2 : (f (jsTrim s2)).success = false)
    (hf3 : (f (jsTrim s3)).success = true)
    (hf4 : (f (jsTrim s4)).success = true) :
    runMigration f false [s1, s2, s3, s4]
      = ⟨4, 3, 1, ["Statement 2: " ++ (f (jsTrim s2)).error]⟩ := by
  have hres : runMigrationAux f false [s1, s2, s3, s4] 0
      = (3, 1, ["Statement 2: " ++ (f (jsTrim s2)).error]) := by
    simp [runMigrationAux, h1.1, h1.2, h2.1, h2.2, h3.1, h3.2, h4.1, h4.2,
      hf1, hf2, hf3, hf4]
    rfl
  simp only [runMigration, hres]
  rfl

/-- Witness for C6 at a concrete 4-statement run. -/
theorem C6_continue_after_failure_witness :
    runMigration (fun s => ExecResult.mk (s != "b;") "dup") false ["a;", "b;", "c;", "d;"]
      = ⟨4, 3, 1, ["Statement 2: "
          ++ ((fun s => ExecResult.mk (s != "b;") "dup") (jsTrim "b;")).error]⟩ :=
  C6_continue_after_failure (fun s => ExecResult.mk (s != "b;") "dup") "a;" "b;" "c;" "d;"
    (by decide) (by decide) (by decide) (by decide)
    (by decide) (by decide) (by decide) (by decide)

/-! ### Claim C2 -/

/-- Claim C2 fails as stated: on a missing file `runMigrationFile` does not
propagate a fatal error — it returns a normal `MigrationResult` (with
`failed = 0`), and the CLI wrapper consequently exits 0. -/
theorem C2_counterexample :
    runMigrationFile (fun _ => none) (fun _ => ExecResult.mk true "") false "missing.sql"
        = .ok ⟨0, 0, 0, ["File not found"]⟩ ∧
      mainExitCode (runMigrationFile (fun _ => none) (fun _ => ExecResult.mk true "")
        false "missing.sql") = 0 :=
  ⟨rfl, rfl⟩

/-- Claim C2 (amended): when the input path does not resolve to a file,
zero statements are attempted (the executor is never invoked), but the
failure is absorbed into a normally returned `MigrationResult`
`{total 0, successful 0, failed 0, errors ["File not found"]}` rather than
propagating to the caller; the CLI wrapper then exits 0. -/
theorem C2_missing_file (fs : FileSystem) (f : String → ExecResult) (stop : Bool)
    (p : String) (h : fs p = none) :
    runMigrationFile fs f stop p = .ok ⟨0, 0, 0, ["File not found"]⟩ ∧
      runMigrationFileCalls fs f stop p = [] ∧
      mainExitCode (runMigrationFile fs f stop p) = 0 := by
  unfold runMigrationFile runMigrationFileCalls
  rw [h]
  exact ⟨rfl, rfl, rfl⟩

/-- Witness for C2 at a concrete empty file system. -/
theorem C2_missing_file_witness :
    runMigrationFile (fun _ => none) (fun _ => ExecResult.mk true "") true "x.sql"
        = .ok ⟨0, 0, 0, ["File not found"]⟩ ∧
      runMigrationFileCalls (fun _ => none) (fun _ => ExecResult.mk true "") true "x.sql"
        = [] ∧
      mainExitCode (runMigrationFile (fun _ => none) (fun _ => ExecResult.mk true "")
        true "x.sql") = 0 :=
  C2_missing_file (fun _ => none) (fun _ => ExecResult.mk true "") true "x.sql" rfl

/-! ### Claim C7 -/

/-- Claim C8: for every input whose lines are all blank or begin (after
trimming) with the line-comment marker `--` — in particular the empty
input, whose line list is `[""]` — `parseSQLStatements` returns the empty
sequence. -/
theorem C8_comments_only (sql : String)
    (h : ∀ l ∈ jsSplitLines sql, jsTrim l = "" ∨ jsStartsWith (jsTrim l) "--" = true) :
    parseSQLStatements sql = [] := by
  unfold parseSQLStatements
  rw [scanLines_skip (jsSplitLines sql) "" false rfl h]
  decide

/-- Witness for C8 on a script of comments and blank lines. -/
theorem C8_comments_only_witness :
    parseSQLStatements "-- create\n\n   -- more\n\t\n-- end" = [] :=
  C8_comments_only "-- create\n\n   -- more\n\t\n-- end" (by decide)

/-! ### Claim C9 -/

/-- Claim C9: for every script splitting into a prefix of lines that the
scanner consumes back to its initial state (complete statements) followed
by final lines that complete no statement and leave a buffer whose trim is
non-empty — a final statement lacking its trailing semicolon —
`parseSQLStatements` still emits that remaining buffer, trimmed, as the
last statement of the returned sequence. -/
theorem C9_trailing_buffer (sql : String) (pre fin : List String) (buf : String)
    (hsplit : jsSplitLines sql = pre ++ fin)
    (hpre : (scanLines pre false "").2 = (false, ""))
    (hfin : scanLines fin false "" = ([], false, buf))
    (hbuf : jsTrim buf ≠ "") :
    parseSQLStatements sql = (scanLines pre false "").1 ++ [jsTrim buf] := by
  unfold parseSQLStatements
  rw [hsplit, scanLines_append, hpre]
  simp only
  rw [hfin]
  simp only [List.append_nil]
  rw [if_pos hbuf]

/-- Witness for C9 on a script whose final statement lacks `;`. -/
theorem C9_trailing_buffer_witness :
    parseSQLStatements "CREATE TABLE t (id INT);\nSELECT 1"
      = (scanLines ["CREATE TABLE t (id INT);"] false "").1 ++ [jsTrim "SELECT 1\n"] :=
  C9_trailing_buffer "CREATE TABLE t (id INT);\nSELECT 1"
    ["CREATE TABLE t (id INT);"] ["SELECT 1"] "SELECT 1\n"
    (by decide) (by decide) (by decide) (by decide)

/-! ### Claim C10 -/

/-- Claim C10: every statement in the sequence returned by
`parseSQLStatements`, for every input string, is non-empty and has no
leading or trailing whitespace (each element equals its own trim). -/
theorem C10_output_trimmed (sql : String) :
    ∀ s ∈ parseSQLStatements sql, s ≠ "" ∧ jsTrim s = s := by
  intro s hs
  unfold parseSQLStatements at hs
  rcases List.mem_append.mp hs with h1 | h2
  · exact scanLines_mem_trimmed _ _ _ s h1
  · by_cases hb : jsTrim (scanLines (jsSplitLines sql) false "").2.2 ≠ ""
    · rw [if_pos hb] at h2
      simp only [List.mem_singleton] at h2
      subst h2
      exact ⟨hb, jsTrim_idem _⟩
    · rw [if_neg hb] at h2
      simp at h2

/-- Witness for C10 at a concrete script and output element. -/
theorem C10_output_trimmed_witness :
    ("SELECT 1;" : String) ≠ "" ∧ jsTrim "SELECT 1;" = "SELECT 1;" :=
  C10_output_trimmed "  SELECT 1;  " "SELECT 1;" (by decide)

end Migrate
